import Mathlib

/-!
Shallow embedding of `src/media_importer.py` (class `MediaImporter`): the
date-resolution, deduplication and placement engine of the media importer.

Modelling conventions:
* A file's on-disk data is a `FileData`: its byte content (`List Nat`),
  its filesystem modification time (already converted to calendar fields,
  mirroring `datetime.fromtimestamp`), its EXIF tag table (what
  `exifread.process_file` would return), and two fault flags: `statOk`
  models whether `Path.stat()` succeeds (`False` = raises `OSError`),
  `readable` models whether `open(path, "rb")` / reading succeeds.
* The destination tree is an association list `FS` from absolute path
  strings to `FileData`; `Path.exists()` / reading an existing file are
  lookups.  `shutil.copy2` adds an entry whose content and mtime are the
  source's (copy2 preserves the modification time).
* MD5 digests are idealized as the file content itself wrapped in
  `Option`: `get_file_hash` returns `some content` on success and `none`
  for the `""` the Python function returns after an `OSError`.  Digest
  equality is `Option` equality, so `"" == ""` (both reads failed)
  compares equal exactly as in the source, and two successful digests
  are equal iff the contents are equal (MD5 collisions are ignored).
* Python exceptions that escape `organize_media` are modelled with
  `Except`: `Except.error (fs, stats)` is an uncaught `OSError`
  propagating with the filesystem and counters as they stood.
* `sorted(files, key=lambda x: x[0])` is embedded as a stable insertion
  sort over the full path compared by Unicode code points, which is
  Python's string ordering.
-/

namespace MediaImporter

/-- Calendar timestamp, the model of a Python `datetime` value. -/
structure DateTime where
  year : Nat
  month : Nat
  day : Nat
  hour : Nat
  minute : Nat
  second : Nat
deriving DecidableEq

/-- On-disk data and fault flags of one file (see the module docstring). -/
structure FileData where
  content : List Nat
  mtime : DateTime
  statOk : Bool
  readable : Bool
  tags : List (String × String)
deriving DecidableEq

/-- The destination tree: absolute path to file data. -/
abbrev FS := List (String × FileData)

/-- Lookup of a path in the destination tree (`Path.exists` / reads). -/
def pathLookup (fs : FS) (p : String) : Option FileData :=
  match fs with
  | [] => none
  | (q, d) :: rest => if q = p then some d else pathLookup rest p

/-- Model of `Path.exists()` on the destination tree. -/
def pathExists (fs : FS) (p : String) : Bool :=
  (pathLookup fs p).isSome

/-- The `self.stats` dictionary of `MediaImporter.__init__`. -/
structure Stats where
  copied : Nat
  skipped : Nat
  errors : Nat
  total_size : Nat
deriving DecidableEq

attribute [ext] Stats

/-- The zeroed statistics a fresh `MediaImporter` starts with. -/
def zeroStats : Stats := { copied := 0, skipped := 0, errors := 0, total_size := 0 }

/-- A candidate media file: its directory, name stem, extension
(`Path.suffix`, including the dot) and on-disk data. -/
structure MediaFile where
  dir : String
  stem : String
  ext : String
  data : FileData
deriving DecidableEq

/-- `Path.name`: stem plus extension. -/
def MediaFile.name (m : MediaFile) : String := m.stem ++ m.ext

/-- Full path of a source file, the sort key of `find_all_media`. -/
def srcPath (m : MediaFile) : String := m.dir ++ "/" ++ m.name

/-- The importer's configuration: `source`, `video_source`, `destination`,
`dry_run`.  `sourceExists` models `self.source.exists()`; `videoFiles`
is the video tree when `self.video_source` is supplied and exists, and
`none` otherwise (both the missing and the nonexistent case skip the
video scan in `find_all_media`). -/
structure Importer where
  sourceExists : Bool
  sourceFiles : List MediaFile
  videoFiles : Option (List MediaFile)
  destination : String
  dry_run : Bool

/-- The photo extension set of `is_photo_file`, verbatim from the source. -/
def photo_extensions : List String :=
  [".arw", ".ARW", ".jpg", ".jpeg", ".JPG", ".JPEG",
   ".dng", ".DNG", ".tif", ".tiff", ".TIF", ".TIFF"]

/-- `MediaImporter.is_photo_file`: exact membership of `Path.suffix` in
the fixed extension set. -/
def is_photo_file (ext : String) : Bool :=
  photo_extensions.contains ext

/-- The video extension set of `is_video_file`, verbatim from the source. -/
def video_extensions : List String :=
  [".mp4", ".MP4", ".mov", ".MOV", ".mts", ".MTS", ".m2ts", ".M2TS"]

/-- `MediaImporter.is_video_file`. -/
def is_video_file (ext : String) : Bool :=
  video_extensions.contains ext

/-- The sidecar extensions skipped by `find_all_media`. -/
def skip_extensions : List String :=
  [".xml", ".XML", ".bup", ".BUP", ".ifo", ".IFO"]

/-- Splitting a character list at a separator, the model of
`str.split(sep)` used for the fixed-format timestamp parse. -/
def splitOnChar (sep : Char) : List Char → List (List Char)
  | [] => [[]]
  | c :: cs =>
    match splitOnChar sep cs with
    | [] => [[c]]
    | g :: gs => if c = sep then [] :: g :: gs else (c :: g) :: gs

/-- Accumulating decimal parse of a digit run (the `int` conversion
inside `strptime`); fails on any non-digit character. -/
def parseNatAux : List Char → Nat → Option Nat
  | [], acc => some acc
  | c :: cs, acc =>
    if c.isDigit then parseNatAux cs (acc * 10 + (c.toNat - 48)) else none

/-- Parse of a nonempty all-digit character run as a natural number. -/
def parseNatDigits : List Char → Option Nat
  | [] => none
  | c :: cs => parseNatAux (c :: cs) 0

/-- Model of `datetime.strptime(s, "%Y:%m:%d %H:%M:%S")`: two
colon-separated triples of digit fields separated by one space, with the
calendar range checks `strptime` performs; any other shape raises
`ValueError`, modelled as `none`. -/
def parseExifDate (s : String) : Option DateTime :=
  match splitOnChar ' ' s.data with
  | [ds, ts] =>
    match splitOnChar ':' ds, splitOnChar ':' ts with
    | [ys, ms, dds], [hs, mins, ss] =>
      match parseNatDigits ys, parseNatDigits ms, parseNatDigits dds,
            parseNatDigits hs, parseNatDigits mins, parseNatDigits ss with
      | some y, some mo, some da, some h, some mi, some se =>
        if 1 ≤ mo ∧ mo ≤ 12 ∧ 1 ≤ da ∧ da ≤ 31 ∧ h ≤ 23 ∧ mi ≤ 59 ∧ se ≤ 61 then
          some ⟨y, mo, da, h, mi, se⟩
        else none
      | _, _, _, _, _, _ => none
    | _, _ => none
  | _ => none

/-- The fixed tag priority order of `get_media_date`. -/
def exifTagOrder : List String :=
  ["EXIF DateTimeOriginal", "EXIF DateTimeDigitized", "Image DateTime"]

/-- The tag loop of `get_media_date`: first tag present whose value
parses wins; a present but unparseable tag falls through to the next. -/
def firstParsedTag : List String → List (String × String) → Option DateTime
  | [], _ => none
  | t :: rest, tags =>
    match tags.lookup t with
    | some s =>
      match parseExifDate s with
      | some d => some d
      | none => firstParsedTag rest tags
    | none => firstParsedTag rest tags

/-- `MediaImporter.get_media_date`.  Videos use the filesystem
modification time directly (`none` when `stat` raises).  Photos try the
EXIF tags in order when the file can be opened, then fall back to the
modification time; `none` when even `stat` fails. -/
def get_media_date (m : MediaFile) : Option DateTime :=
  if is_video_file m.ext then
    if m.data.statOk then some m.data.mtime else none
  else
    match (if m.data.readable then firstParsedTag exifTagOrder m.data.tags else none) with
    | some d => some d
    | none => if m.data.statOk then some m.data.mtime else none

/-- `MediaImporter.get_file_hash`: idealized MD5 digest.  `some content`
on success; `none` models the `""` returned after an `OSError`. -/
def get_file_hash (d : FileData) : Option (List Nat) :=
  if d.readable then some d.content else none

/-- Decimal rendering zero-padded to two digits (`strftime("%m")`,
`strftime("%d")`). -/
def pad2 (n : Nat) : String :=
  if n < 10 then "0" ++ Nat.repr n else Nat.repr n

/-- Decimal rendering zero-padded to four digits (`strftime("%Y")`). -/
def pad4 (n : Nat) : String :=
  if n < 10 then "000" ++ Nat.repr n
  else if n < 100 then "00" ++ Nat.repr n
  else if n < 1000 then "0" ++ Nat.repr n
  else Nat.repr n

/-- The destination directory `destination / year / month / day /
(videos|pictures)` computed by `organize_media`. -/
def destDirFor (imp : Importer) (file_type : String) (d : DateTime) : String :=
  imp.destination ++ "/" ++ pad4 d.year ++ "/" ++ pad2 d.month ++ "/" ++ pad2 d.day
    ++ "/" ++ (if file_type = "video" then "videos" else "pictures")

/-- The initial target path `dest_dir / media_path.name`. -/
def basePathFor (imp : Importer) (m : MediaFile) (file_type : String) (d : DateTime) : String :=
  destDirFor imp file_type d ++ "/" ++ m.name

/-- The candidate name `stem_counter + suffix` built inside the collision
loop. -/
def suffixName (stem : String) (counter : Nat) (ext : String) : String :=
  stem ++ "_" ++ Nat.repr counter ++ ext

/-- The `while dest_file.exists()` collision loop of `organize_media`,
with explicit fuel (the loop in the source terminates because the
directory holds finitely many files). -/
def suffixLoop (fs : FS) (dest_dir stem ext : String) : Nat → String → Nat → String
  | 0, cur, _ => cur
  | fuel + 1, cur, counter =>
    if pathExists fs cur then
      suffixLoop fs dest_dir stem ext fuel (dest_dir ++ "/" ++ suffixName stem counter ext)
        (counter + 1)
    else cur

/-- Per-file outcome tag, naming which return site of `organize_media`
produced the result. -/
inductive Outcome where
  | skippedNoDate
  | skippedSameSize
  | skippedHashEqual
  | copiedFresh
  | copiedSuffixed
  | errorCopy
deriving DecidableEq

/-- The data `shutil.copy2` leaves at the destination: same content and
tags, modification time preserved, and a fresh healthy file. -/
def copiedFile (d : FileData) : FileData :=
  { content := d.content, mtime := d.mtime, statOk := true, readable := true, tags := d.tags }

/-- The tail of `organize_media` from the `dry_run` test on: the dry-run
report, or `mkdir` + `copy2` + the `stat` for `total_size`, with the
`except OSError` arm counting an error.  `copy2` fails (before creating
the destination) when the source cannot be opened; the `stat` after a
successful copy fails when the source's `stat` raises. -/
def copyPhase (imp : Importer) (media : MediaFile) (dest_file : String) (tag : Outcome)
    (fs : FS) (stats : Stats) : Except (FS × Stats) (FS × Stats × Bool × Outcome) :=
  if imp.dry_run then
    .ok (fs, { stats with copied := stats.copied + 1 }, true, tag)
  else
    if media.data.readable then
      let fs2 := (dest_file, copiedFile media.data) :: fs
      if media.data.statOk then
        .ok (fs2,
          { stats with
            total_size := stats.total_size + media.data.content.length,
            copied := stats.copied + 1 },
          true, tag)
      else
        .ok (fs2, { stats with errors := stats.errors + 1 }, false, .errorCopy)
    else
      .ok (fs, { stats with errors := stats.errors + 1 }, false, .errorCopy)

/-- `MediaImporter.organize_media`.  `Except.error` is the uncaught
`OSError` raised by `dest_file.stat()` / `media_path.stat()` in the
size check (line 323 of the source), carrying the untouched state. -/
def organizeMedia (imp : Importer) (media : MediaFile) (file_type : String)
    (fs : FS) (stats : Stats) : Except (FS × Stats) (FS × Stats × Bool × Outcome) :=
  match get_media_date media with
  | none => .ok (fs, { stats with skipped := stats.skipped + 1 }, false, .skippedNoDate)
  | some d =>
    match pathLookup fs (basePathFor imp media file_type d) with
    | some destData =>
      if destData.statOk then
        if media.data.statOk then
          if destData.content.length = media.data.content.length then
            .ok (fs, { stats with skipped := stats.skipped + 1 }, false, .skippedSameSize)
          else
            if get_file_hash media.data = get_file_hash destData then
              .ok (fs, { stats with skipped := stats.skipped + 1 }, false, .skippedHashEqual)
            else
              copyPhase imp media
                (suffixLoop fs (destDirFor imp file_type d) media.stem media.ext
                  (fs.length + 2) (basePathFor imp media file_type d) 1)
                .copiedSuffixed fs stats
        else .error (fs, stats)
      else .error (fs, stats)
    | none => copyPhase imp media (basePathFor imp media file_type d) .copiedFresh fs stats

/-- Lexicographic comparison of character lists by code point: Python's
`<` on strings, used by `sorted(files, key=lambda x: x[0])`. -/
def charListLt : List Char → List Char → Bool
  | [], [] => false
  | [], _ :: _ => true
  | _ :: _, [] => false
  | c :: cs, d :: ds => if c < d then true else if d < c then false else charListLt cs ds

/-- Path ordering of two candidates (full source path). -/
def pathBefore (x y : MediaFile × String) : Bool :=
  charListLt (srcPath x.1).data (srcPath y.1).data

/-- Stable insertion of one candidate into an already sorted list. -/
def insertByPath (x : MediaFile × String) : List (MediaFile × String) → List (MediaFile × String)
  | [] => [x]
  | y :: ys => if pathBefore y x then y :: insertByPath x ys else x :: y :: ys

/-- Stable sort by full path: the `sorted(files, key=lambda x: x[0])` of
`find_all_media`. -/
def sortByPath : List (MediaFile × String) → List (MediaFile × String)
  | [] => []
  | x :: xs => insertByPath x (sortByPath xs)

/-- The filter of the photo scan: regular file, not a sidecar, photo
extension. -/
def photoScanFilter (m : MediaFile) : Bool :=
  !(skip_extensions.contains m.ext) && is_photo_file m.ext

/-- The filter of the video scan. -/
def videoScanFilter (m : MediaFile) : Bool :=
  !(skip_extensions.contains m.ext) && is_video_file m.ext

/-- `MediaImporter.find_all_media`: photo scan (empty when the source
directory is missing and `rglob` raises, which the function catches),
then video scan when a video source is present, then the sort. -/
def find_all_media (imp : Importer) : List (MediaFile × String) :=
  let photos := if imp.sourceExists then
      (imp.sourceFiles.filter photoScanFilter).map (fun m => (m, "photo"))
    else []
  let videos := match imp.videoFiles with
    | some vs => (vs.filter videoScanFilter).map (fun m => (m, "video"))
    | none => []
  sortByPath (photos ++ videos)

/-- The per-file loop of `import_media`: the return value of
`organize_media` is ignored, a propagating exception aborts the run. -/
def processFiles (imp : Importer) : FS → Stats → List (MediaFile × String) →
    Except (FS × Stats) (FS × Stats)
  | fs, stats, [] => .ok (fs, stats)
  | fs, stats, (m, t) :: rest =>
    match organizeMedia imp m t fs stats with
    | .error e => .error e
    | .ok (fs2, stats2, _, _) => processFiles imp fs2 stats2 rest

/-- `MediaImporter.import_media`: fail when the photo source does not
exist, fail when no media is found, otherwise process every candidate
and return success.  The `Bool` is the function's return value (the
process exit code is `0` iff it is `true`). -/
def importMedia (imp : Importer) (fs : FS) (stats : Stats) :
    Except (FS × Stats) (FS × Stats × Bool) :=
  if imp.sourceExists then
    match find_all_media imp with
    | [] => .ok (fs, stats, false)
    | x :: rest =>
      match processFiles imp fs stats (x :: rest) with
      | .error e => .error e
      | .ok (fs2, stats2) => .ok (fs2, stats2, true)
  else .ok (fs, stats, false)

end MediaImporter

namespace MediaImporter

/-! Helper notions used by the theorems. -/

/-- All-uppercase rendering of an extension (the spec's notion of a case
variant; not used by the source, which matches extensions exactly). -/
def upperName (s : String) : String := ⟨s.data.map Char.toUpper⟩

/-- All-lowercase rendering of an extension. -/
def lowerName (s : String) : String := ⟨s.data.map Char.toLower⟩

/-! Concrete fixtures for counterexamples and witnesses. -/

/-- A sample capture timestamp. -/
def dt0 : DateTime := ⟨2025, 11, 28, 14, 30, 45⟩

/-- A healthy two-byte photo file. -/
def fdOk : FileData :=
  { content := [1, 2], mtime := dt0, statOk := true, readable := true, tags := [] }

/-- A healthy file with the same size as `fdOk` but different content. -/
def fdOtherSameSize : FileData :=
  { content := [3, 4], mtime := dt0, statOk := true, readable := true, tags := [] }

/-- A non-dry-run importer with destination `dest` whose photo source
holds one file. -/
def imp1 : Importer := ⟨true, [⟨"src", "A", ".jpg", fdOk⟩], none, "dest", false⟩

/-- The destination path `A.jpg` resolves to under `dt0`. -/
def destA : String := "dest/2025/11/28/pictures/A.jpg"

end MediaImporter

namespace MediaImporter

/-- C5 counterexample: classification is not case-insensitive.  The
lower and upper spellings `.jpg` / `.JPG` are photos but the mixed-case
variant `.Jpg` is not, and `.xml` is a skipped sidecar while `.Xml` is
not, refuting the claim that any case variant of a listed extension
classifies the same. -/
theorem extension_matching_is_exact :
    is_photo_file ".jpg" = true ∧ is_photo_file ".JPG" = true ∧ is_photo_file ".Jpg" = false ∧
    skip_extensions.contains ".xml" = true ∧ skip_extensions.contains ".Xml" = false := by
  decide

/-- C5 (amended): classification is a pure function of the exact
extension string, matched against fixed lists that contain the all-lower
and all-upper spelling of every listed extension; hence the all-upper
and all-lower renderings of any recognized extension are recognized the
same way, while other case mixtures are not listed. -/
theorem extension_case_closure (e : String) :
    (is_photo_file e = true →
      is_photo_file (upperName e) = true ∧ is_photo_file (lowerName e) = true) ∧
    (is_video_file e = true →
      is_video_file (upperName e) = true ∧ is_video_file (lowerName e) = true) ∧
    (skip_extensions.contains e = true →
      skip_extensions.contains (upperName e) = true ∧
      skip_extensions.contains (lowerName e) = true) := by
  refine ⟨fun h => ?_, fun h => ?_, fun h => ?_⟩
  · rw [is_photo_file, photo_extensions, List.contains, List.elem_iff] at h
    simp only [List.mem_cons, List.not_mem_nil, or_false] at h
    rcases h with rfl | rfl | rfl | rfl | rfl | rfl | rfl | rfl | rfl | rfl | rfl | rfl <;> decide
  · rw [is_video_file, video_extensions, List.contains, List.elem_iff] at h
    simp only [List.mem_cons, List.not_mem_nil, or_false] at h
    rcases h with rfl | rfl | rfl | rfl | rfl | rfl | rfl | rfl <;> decide
  · rw [skip_extensions, List.contains, List.elem_iff] at h
    simp only [List.mem_cons, List.not_mem_nil, or_false] at h
    rcases h with rfl | rfl | rfl | rfl | rfl | rfl <;> decide

/-- C5 witness: the case-closure theorem applied to `.jpg`, `.mp4` and
`.ifo`. -/
theorem extension_case_closure_witness :
    (is_photo_file (upperName ".jpg") = true ∧ is_photo_file (lowerName ".jpg") = true) ∧
    (is_video_file (upperName ".mp4") = true ∧ is_video_file (lowerName ".mp4") = true) ∧
    (skip_extensions.contains (upperName ".ifo") = true ∧
      skip_extensions.contains (lowerName ".ifo") = true) :=
  ⟨(extension_case_closure ".jpg").1 (by decide),
   (extension_case_closure ".mp4").2.1 (by decide),
   (extension_case_closure ".ifo").2.2 (by decide)⟩

end MediaImporter

namespace MediaImporter

/-- C9: in dry-run mode `organize_media` never mutates the destination
tree and never changes the `total_size` statistic, whether it returns
normally or propagates the size-check `OSError`. -/
theorem dry_run_no_mutation (imp : Importer) (m : MediaFile) (t : String)
    (fs : FS) (stats : Stats) (hdry : imp.dry_run = true) :
    (∀ fs2 stats2 b out, organizeMedia imp m t fs stats = .ok (fs2, stats2, b, out) →
      fs2 = fs ∧ stats2.total_size = stats.total_size) ∧
    (∀ e, organizeMedia imp m t fs stats = .error e →
      e.1 = fs ∧ e.2.total_size = stats.total_size) := by
  constructor
  · intro fs2 stats2 b out h
    unfold organizeMedia copyPhase at h
    rw [hdry] at h
    repeat' split at h
    all_goals simp only [Except.ok.injEq, Prod.mk.injEq, reduceCtorEq] at h
    all_goals obtain ⟨rfl, rfl, rfl, rfl⟩ := h
    all_goals simp_all
  · intro e h
    unfold organizeMedia copyPhase at h
    rw [hdry] at h
    repeat' split at h
    all_goals simp only [Except.error.injEq, reduceCtorEq] at h
    all_goals subst h
    all_goals simp

/-- C9 witness: a dry-run call on the concrete fixture leaves the
occupied destination tree and the byte counter untouched. -/
theorem dry_run_no_mutation_witness :
    [(destA, fdOtherSameSize)] = [(destA, fdOtherSameSize)] ∧
    ({ zeroStats with skipped := 1 } : Stats).total_size = zeroStats.total_size :=
  (dry_run_no_mutation ⟨true, [], none, "dest", true⟩ ⟨"src", "A", ".jpg", fdOk⟩ "photo"
      [(destA, fdOtherSameSize)] zeroStats rfl).1
    [(destA, fdOtherSameSize)] { zeroStats with skipped := 1 } false .skippedSameSize rfl

end MediaImporter

namespace MediaImporter

/-- C10 counterexample: a call to `organize_media` that increments no
counter at all.  The candidate's date resolves and its target path is
occupied by a file whose `stat` raises, so the uncaught `OSError` from
the size check propagates before any counter is touched, refuting the
claim that every call increments exactly one counter. -/
theorem organize_can_skip_all_counters :
    organizeMedia ⟨true, [], none, "dest", false⟩ ⟨"src", "A", ".jpg", fdOk⟩ "photo"
      [(destA, ⟨[9, 9, 9], dt0, false, true, []⟩)] zeroStats
      = .error ([(destA, ⟨[9, 9, 9], dt0, false, true, []⟩)], zeroStats) := rfl

/-- C10 (amended): every call to `organize_media` that returns normally
increments exactly one of `copied`, `skipped`, `errors`, by exactly one;
a call that propagates the size-check `OSError` increments none. -/
theorem organize_increments_exactly_one (imp : Importer) (m : MediaFile) (t : String)
    (fs : FS) (stats : Stats) (fs2 : FS) (stats2 : Stats) (b : Bool) (out : Outcome)
    (h : organizeMedia imp m t fs stats = .ok (fs2, stats2, b, out)) :
    (stats2.copied = stats.copied + 1 ∧ stats2.skipped = stats.skipped ∧
      stats2.errors = stats.errors) ∨
    (stats2.copied = stats.copied ∧ stats2.skipped = stats.skipped + 1 ∧
      stats2.errors = stats.errors) ∨
    (stats2.copied = stats.copied ∧ stats2.skipped = stats.skipped ∧
      stats2.errors = stats.errors + 1) := by
  unfold organizeMedia copyPhase at h
  repeat' split at h
  all_goals simp only [Except.ok.injEq, Prod.mk.injEq, reduceCtorEq] at h
  all_goals obtain ⟨rfl, rfl, rfl, rfl⟩ := h
  all_goals simp

/-- C10 witness: the exactly-one-increment theorem applied to a concrete
fresh copy, which bumps `copied` only. -/
theorem organize_increments_exactly_one_witness :
    (({ copied := 1, skipped := 0, errors := 0, total_size := 2 } : Stats).copied
        = zeroStats.copied + 1 ∧
      ({ copied := 1, skipped := 0, errors := 0, total_size := 2 } : Stats).skipped
        = zeroStats.skipped ∧
      ({ copied := 1, skipped := 0, errors := 0, total_size := 2 } : Stats).errors
        = zeroStats.errors) ∨
    (({ copied := 1, skipped := 0, errors := 0, total_size := 2 } : Stats).copied
        = zeroStats.copied ∧
      ({ copied := 1, skipped := 0, errors := 0, total_size := 2 } : Stats).skipped
        = zeroStats.skipped + 1 ∧
      ({ copied := 1, skipped := 0, errors := 0, total_size := 2 } : Stats).errors
        = zeroStats.errors) ∨
    (({ copied := 1, skipped := 0, errors := 0, total_size := 2 } : Stats).copied
        = zeroStats.copied ∧
      ({ copied := 1, skipped := 0, errors := 0, total_size := 2 } : Stats).skipped
        = zeroStats.skipped ∧
      ({ copied := 1, skipped := 0, errors := 0, total_size := 2 } : Stats).errors
        = zeroStats.errors + 1) :=
  organize_increments_exactly_one ⟨true, [], none, "dest", false⟩ ⟨"src", "A", ".jpg", fdOk⟩
    "photo" [] zeroStats [(destA, copiedFile fdOk)]
    { copied := 1, skipped := 0, errors := 0, total_size := 2 } true .copiedFresh rfl

/-- C8: when `import_media` returns normally, it returns failure exactly
when the photo source does not exist or the combined candidate list is
empty, and in the missing-source case no file is processed (tree and
statistics are untouched). -/
theorem import_failure_cases (imp : Importer) (fs : FS) (stats : Stats)
    (fs2 : FS) (stats2 : Stats) (b : Bool)
    (h : importMedia imp fs stats = .ok (fs2, stats2, b)) :
    (b = true ↔ imp.sourceExists = true ∧ find_all_media imp ≠ []) ∧
    (imp.sourceExists = false → fs2 = fs ∧ stats2 = stats) := by
  unfold importMedia at h
  repeat' split at h
  all_goals simp only [Except.ok.injEq, Prod.mk.injEq, reduceCtorEq] at h
  all_goals obtain ⟨rfl, rfl, rfl⟩ := h
  all_goals simp_all

/-- C8 witness: a run over one healthy photo file from the fixture
source succeeds, and the success bit matches the characterization. -/
theorem import_failure_cases_witness :
    (true = true ↔ imp1.sourceExists = true ∧ find_all_media imp1 ≠ []) ∧
    (imp1.sourceExists = false → [(destA, copiedFile fdOk)] = ([] : FS) ∧
      ({ copied := 1, skipped := 0, errors := 0, total_size := 2 } : Stats) = zeroStats) :=
  import_failure_cases imp1 [] zeroStats [(destA, copiedFile fdOk)]
    { copied := 1, skipped := 0, errors := 0, total_size := 2 } true rfl

end MediaImporter

namespace MediaImporter

/-- A tag contributes no date: it is absent, or present with a value the
fixed-format parse rejects. -/
def tagFails (tags : List (String × String)) (t : String) : Prop :=
  ∀ s, tags.lookup t = some s → parseExifDate s = none

/-- One step of the tag loop: a present, parseable tag wins. -/
theorem firstParsedTag_cons_hit (t : String) (rest : List String)
    (tags : List (String × String)) (s : String) (d : DateTime)
    (h1 : tags.lookup t = some s) (h2 : parseExifDate s = some d) :
    firstParsedTag (t :: rest) tags = some d := by
  simp only [firstParsedTag, h1, h2]

/-- One step of the tag loop: an absent or unparseable tag falls through
to the remaining tags. -/
theorem firstParsedTag_cons_miss (t : String) (rest : List String)
    (tags : List (String × String)) (h : tagFails tags t) :
    firstParsedTag (t :: rest) tags = firstParsedTag rest tags := by
  cases hlk : tags.lookup t with
  | none => simp only [firstParsedTag, hlk]
  | some s => simp only [firstParsedTag, hlk, h s hlk]

/-- C6: for a photo file, date resolution tries the tags
`EXIF DateTimeOriginal`, `EXIF DateTimeDigitized`, `Image DateTime` in
that fixed order, returns the first present tag whose value parses in
the fixed `YYYY:MM:DD HH:MM:SS` format, continues past a tag that is
absent or fails to parse, and falls back to the filesystem modification
time when all tags fail or the file cannot be opened (`none` only when
even `stat` fails). -/
theorem get_media_date_photo_priority (m : MediaFile) (hv : is_video_file m.ext = false) :
    (m.data.readable = true →
      (∀ s d, m.data.tags.lookup "EXIF DateTimeOriginal" = some s →
        parseExifDate s = some d → get_media_date m = some d) ∧
      (tagFails m.data.tags "EXIF DateTimeOriginal" →
        ∀ s d, m.data.tags.lookup "EXIF DateTimeDigitized" = some s →
          parseExifDate s = some d → get_media_date m = some d) ∧
      (tagFails m.data.tags "EXIF DateTimeOriginal" →
        tagFails m.data.tags "EXIF DateTimeDigitized" →
        ∀ s d, m.data.tags.lookup "Image DateTime" = some s →
          parseExifDate s = some d → get_media_date m = some d) ∧
      (tagFails m.data.tags "EXIF DateTimeOriginal" →
        tagFails m.data.tags "EXIF DateTimeDigitized" →
        tagFails m.data.tags "Image DateTime" →
        get_media_date m = (if m.data.statOk then some m.data.mtime else none))) ∧
    (m.data.readable = false →
      get_media_date m = (if m.data.statOk then some m.data.mtime else none)) := by
  constructor
  · intro hr
    refine ⟨fun s d h1 h2 => ?_, fun f1 s d h1 h2 => ?_, fun f1 f2 s d h1 h2 => ?_,
      fun f1 f2 f3 => ?_⟩
    · simp only [get_media_date, hv, Bool.false_eq_true, if_false, hr, if_true, exifTagOrder]
      rw [firstParsedTag_cons_hit _ _ _ _ _ h1 h2]
    · simp only [get_media_date, hv, Bool.false_eq_true, if_false, hr, if_true, exifTagOrder]
      rw [firstParsedTag_cons_miss _ _ _ f1, firstParsedTag_cons_hit _ _ _ _ _ h1 h2]
    · simp only [get_media_date, hv, Bool.false_eq_true, if_false, hr, if_true, exifTagOrder]
      rw [firstParsedTag_cons_miss _ _ _ f1, firstParsedTag_cons_miss _ _ _ f2,
        firstParsedTag_cons_hit _ _ _ _ _ h1 h2]
    · simp only [get_media_date, hv, Bool.false_eq_true, if_false, hr, if_true, exifTagOrder]
      rw [firstParsedTag_cons_miss _ _ _ f1, firstParsedTag_cons_miss _ _ _ f2,
        firstParsedTag_cons_miss _ _ _ f3]
      rfl
  · intro hr
    simp only [get_media_date, hv, Bool.false_eq_true, if_false, hr]

/-- C6 witness: a photo with a parseable `EXIF DateTimeOriginal` tag
resolves to that tag's timestamp, not to its modification time. -/
theorem get_media_date_photo_priority_witness :
    get_media_date ⟨"src", "A", ".arw",
      ⟨[5], ⟨2001, 1, 1, 0, 0, 0⟩, true, true,
        [("EXIF DateTimeOriginal", "2025:11:28 14:30:45")]⟩⟩ = some dt0 :=
  ((get_media_date_photo_priority ⟨"src", "A", ".arw",
      ⟨[5], ⟨2001, 1, 1, 0, 0, 0⟩, true, true,
        [("EXIF DateTimeOriginal", "2025:11:28 14:30:45")]⟩⟩ (by decide)).1 rfl).1
    "2025:11:28 14:30:45" dt0 rfl (by decide)

end MediaImporter

namespace MediaImporter

/-- Characterization of `organize_media` when the target path is
occupied and both `stat` calls succeed: equal sizes skip immediately,
differing sizes compare digests, equal digests skip, differing digests
take the collision path.  Shared helper for the placement theorems. -/
theorem organize_at_occupied (imp : Importer) (m : MediaFile) (t : String)
    (fs : FS) (stats : Stats) (d : DateTime) (dd : FileData)
    (hd : get_media_date m = some d)
    (hl : pathLookup fs (basePathFor imp m t d) = some dd)
    (h1 : dd.statOk = true) (h2 : m.data.statOk = true) :
    (dd.content.length = m.data.content.length →
      organizeMedia imp m t fs stats
        = .ok (fs, { stats with skipped := stats.skipped + 1 }, false, .skippedSameSize)) ∧
    (dd.content.length ≠ m.data.content.length →
      get_file_hash m.data = get_file_hash dd →
      organizeMedia imp m t fs stats
        = .ok (fs, { stats with skipped := stats.skipped + 1 }, false, .skippedHashEqual)) ∧
    (dd.content.length ≠ m.data.content.length →
      get_file_hash m.data ≠ get_file_hash dd →
      organizeMedia imp m t fs stats
        = copyPhase imp m
            (suffixLoop fs (destDirFor imp t d) m.stem m.ext (fs.length + 2)
              (basePathFor imp m t d) 1)
            .copiedSuffixed fs stats) := by
  refine ⟨fun hs => ?_, fun hs hh => ?_, fun hs hh => ?_⟩
  · simp only [organizeMedia, hd, hl, h1, h2, hs, if_true, ite_true]
  · simp only [organizeMedia, hd, hl, h1, h2, if_true, ite_true]
    rw [if_neg hs, if_pos hh]
  · simp only [organizeMedia, hd, hl, h1, h2, if_true, ite_true]
    rw [if_neg hs, if_neg hh]

end MediaImporter

namespace MediaImporter

/-- The non-dry-run importer fixture used by concrete placements. -/
def imp0 : Importer := ⟨true, [], none, "dest", false⟩

/-- The healthy candidate photo `src/A.jpg`. -/
def mA : MediaFile := ⟨"src", "A", ".jpg", fdOk⟩

/-- C1 counterexample: with the target occupied by a file of equal size
but different content, `organize_media` skips the candidate as a
duplicate instead of copying it under a suffixed name — the code never
compares content when the sizes are equal. -/
theorem equal_size_different_content_is_skipped :
    organizeMedia imp0 mA "photo" [(destA, fdOtherSameSize)] zeroStats
      = .ok ([(destA, fdOtherSameSize)],
        { copied := 0, skipped := 1, errors := 0, total_size := 0 }, false,
        .skippedSameSize) ∧
    fdOk.content ≠ fdOtherSameSize.content ∧
    fdOk.content.length = fdOtherSameSize.content.length :=
  ⟨rfl, by decide, rfl⟩

/-- C1 (amended): when the target path is occupied (and the size check's
stat calls succeed), equal sizes skip the candidate as a duplicate with
no content comparison; differing sizes escalate to the MD5 comparison,
after which equal digests skip and differing digests copy under a
suffixed name found by the collision loop. -/
theorem placement_decision_table (imp : Importer) (m : MediaFile) (t : String)
    (fs : FS) (stats : Stats) (d : DateTime) (dd : FileData)
    (hd : get_media_date m = some d)
    (hl : pathLookup fs (basePathFor imp m t d) = some dd)
    (h1 : dd.statOk = true) (h2 : m.data.statOk = true) :
    (dd.content.length = m.data.content.length →
      organizeMedia imp m t fs stats
        = .ok (fs, { stats with skipped := stats.skipped + 1 }, false, .skippedSameSize)) ∧
    (dd.content.length ≠ m.data.content.length →
      get_file_hash m.data = get_file_hash dd →
      organizeMedia imp m t fs stats
        = .ok (fs, { stats with skipped := stats.skipped + 1 }, false, .skippedHashEqual)) ∧
    (dd.content.length ≠ m.data.content.length →
      get_file_hash m.data ≠ get_file_hash dd →
      organizeMedia imp m t fs stats
        = copyPhase imp m
            (suffixLoop fs (destDirFor imp t d) m.stem m.ext (fs.length + 2)
              (basePathFor imp m t d) 1)
            .copiedSuffixed fs stats) :=
  organize_at_occupied imp m t fs stats d dd hd hl h1 h2

/-- C1 witness: the decision table applied to the concrete equal-size
collision of the counterexample fixture. -/
theorem placement_decision_table_witness :
    organizeMedia imp0 mA "photo" [(destA, fdOtherSameSize)] zeroStats
      = .ok ([(destA, fdOtherSameSize)],
        { zeroStats with skipped := zeroStats.skipped + 1 }, false, .skippedSameSize) :=
  (placement_decision_table imp0 mA "photo" [(destA, fdOtherSameSize)] zeroStats dt0
    fdOtherSameSize rfl rfl rfl rfl).1 rfl

/-- An unreadable two-byte candidate: `open` raises but `stat` works, so
its date still resolves from the modification time. -/
def mAUnreadable : MediaFile := ⟨"src", "A", ".jpg", ⟨[1, 2], dt0, true, false, []⟩⟩

/-- A three-byte unreadable destination occupant. -/
def fdBigUnreadable : FileData := ⟨[9, 9, 9], dt0, true, false, []⟩

/-- A three-byte readable destination occupant. -/
def fdBigReadable : FileData := ⟨[9, 9, 9], dt0, true, true, []⟩

/-- C2 counterexample: when hashing fails for BOTH files (sizes differ,
neither can be read), `get_file_hash` returns the empty string twice,
the two failures compare equal, and the candidate is skipped as a
duplicate — not copied under a new name as the claim requires. -/
theorem both_hash_failures_skip_as_duplicate :
    organizeMedia imp0 mAUnreadable "photo" [(destA, fdBigUnreadable)] zeroStats
      = .ok ([(destA, fdBigUnreadable)],
        { copied := 0, skipped := 1, errors := 0, total_size := 0 }, false,
        .skippedHashEqual) ∧
    mAUnreadable.data.content ≠ fdBigUnreadable.content :=
  ⟨rfl, by decide⟩

/-- C2 (amended): in the differing-size comparison, if exactly one of
the two hash reads fails the digests compare unequal and the candidate
takes the collision path (copied under a new name); but if both reads
fail the two empty digests compare equal and the candidate is skipped
as a duplicate. -/
theorem hash_failure_comparison (imp : Importer) (m : MediaFile) (t : String)
    (fs : FS) (stats : Stats) (d : DateTime) (dd : FileData)
    (hd : get_media_date m = some d)
    (hl : pathLookup fs (basePathFor imp m t d) = some dd)
    (h1 : dd.statOk = true) (h2 : m.data.statOk = true)
    (hs : dd.content.length ≠ m.data.content.length) :
    ((m.data.readable = true ∧ dd.readable = false) ∨
      (m.data.readable = false ∧ dd.readable = true) →
      organizeMedia imp m t fs stats
        = copyPhase imp m
            (suffixLoop fs (destDirFor imp t d) m.stem m.ext (fs.length + 2)
              (basePathFor imp m t d) 1)
            .copiedSuffixed fs stats) ∧
    (m.data.readable = false → dd.readable = false →
      organizeMedia imp m t fs stats
        = .ok (fs, { stats with skipped := stats.skipped + 1 }, false, .skippedHashEqual)) := by
  constructor
  · intro hone
    refine (organize_at_occupied imp m t fs stats d dd hd hl h1 h2).2.2 hs ?_
    rcases hone with ⟨hm, hdd⟩ | ⟨hm, hdd⟩ <;> simp [get_file_hash, hm, hdd]
  · intro hm hdd
    exact (organize_at_occupied imp m t fs stats d dd hd hl h1 h2).2.1 hs
      (by simp [get_file_hash, hm, hdd])

/-- C2 witness: a readable candidate against an unreadable occupant of a
different size takes the collision path. -/
theorem hash_failure_comparison_witness :
    organizeMedia imp0 mA "photo" [(destA, fdBigUnreadable)] zeroStats
      = copyPhase imp0 mA
          (suffixLoop [(destA, fdBigUnreadable)] (destDirFor imp0 "photo" dt0) mA.stem mA.ext
            ([(destA, fdBigUnreadable)].length + 2) (basePathFor imp0 mA "photo" dt0) 1)
          .copiedSuffixed [(destA, fdBigUnreadable)] zeroStats :=
  (hash_failure_comparison imp0 mA "photo" [(destA, fdBigUnreadable)] zeroStats dt0
      fdBigUnreadable rfl rfl rfl rfl (by decide)).1 (Or.inl ⟨rfl, rfl⟩)

end MediaImporter

namespace MediaImporter

/-- The collision loop, started at any counter `k`, returns the first
free suffixed name at or after `k` when every earlier one is occupied
and the fuel covers the distance. -/
theorem suffixLoop_finds (fs : FS) (dest_dir stem ext : String) (K : Nat)
    (hfree : pathExists fs (dest_dir ++ "/" ++ suffixName stem K ext) = false) :
    ∀ fuel k cur, 1 ≤ k → k ≤ K →
      pathExists fs cur = true →
      (∀ j, k ≤ j → j < K → pathExists fs (dest_dir ++ "/" ++ suffixName stem j ext) = true) →
      K + 2 - k ≤ fuel →
      suffixLoop fs dest_dir stem ext fuel cur k
        = dest_dir ++ "/" ++ suffixName stem K ext := by
  intro fuel
  induction fuel with
  | zero => intro k cur _ hkK _ _ hfuel; omega
  | succ f ih =>
    intro k cur hk1 hkK hcur hocc hfuel
    rw [show suffixLoop fs dest_dir stem ext (f + 1) cur k
        = if pathExists fs cur then
            suffixLoop fs dest_dir stem ext f
              (dest_dir ++ "/" ++ suffixName stem k ext) (k + 1)
          else cur from rfl]
    rw [if_pos hcur]
    rcases Nat.lt_or_ge k K with hlt | hge
    · exact ih (k + 1) _ (by omega) (by omega) (hocc k (by omega) hlt)
        (fun j hj1 hj2 => hocc j (by omega) hj2) (by omega)
    · have hkeq : k = K := by omega
      subst hkeq
      obtain ⟨f2, rfl⟩ : ∃ f2, f = f2 + 1 := by
        rcases f with _ | f2
        · omega
        · exact ⟨f2, rfl⟩
      rw [show suffixLoop fs dest_dir stem ext (f2 + 1)
            (dest_dir ++ "/" ++ suffixName stem k ext) (k + 1)
          = if pathExists fs (dest_dir ++ "/" ++ suffixName stem k ext) then
              suffixLoop fs dest_dir stem ext f2
                (dest_dir ++ "/" ++ suffixName stem (k + 1) ext) (k + 2)
            else dest_dir ++ "/" ++ suffixName stem k ext from rfl]
      rw [if_neg (by simp [hfree])]

/-- C7: on a name collision with different content, `organize_media`
copies under `stem_k.ext` for the smallest `k ≥ 1` whose suffixed name
does not yet exist in the target directory; the search is a
deterministic function of the destination state and never lands on an
occupied number. -/
theorem collision_suffix_least (imp : Importer) (m : MediaFile) (t : String)
    (fs : FS) (stats : Stats) (d : DateTime) (dd : FileData) (K : Nat)
    (hd : get_media_date m = some d)
    (hl : pathLookup fs (basePathFor imp m t d) = some dd)
    (h1 : dd.statOk = true) (h2 : m.data.statOk = true)
    (hs : dd.content.length ≠ m.data.content.length)
    (hh : get_file_hash m.data ≠ get_file_hash dd)
    (hK : 1 ≤ K)
    (hocc : ∀ j, 1 ≤ j → j < K →
      pathExists fs (destDirFor imp t d ++ "/" ++ suffixName m.stem j m.ext) = true)
    (hfree : pathExists fs (destDirFor imp t d ++ "/" ++ suffixName m.stem K m.ext) = false)
    (hKb : K ≤ fs.length + 1) :
    organizeMedia imp m t fs stats
      = copyPhase imp m (destDirFor imp t d ++ "/" ++ suffixName m.stem K m.ext)
          .copiedSuffixed fs stats := by
  rw [(organize_at_occupied imp m t fs stats d dd hd hl h1 h2).2.2 hs hh]
  rw [suffixLoop_finds fs (destDirFor imp t d) m.stem m.ext K hfree (fs.length + 2) 1
    (basePathFor imp m t d) (by omega) hK (by simp [pathExists, hl]) (fun j hj1 hj2 => hocc j hj1 hj2)
    (by omega)]

/-- C7 witness: with `A.jpg` and `A_1.jpg` occupied by different
content and `A_2.jpg` free, the copy lands at `A_2.jpg`. -/
theorem collision_suffix_least_witness :
    organizeMedia imp0 mA "photo"
      [(destA, fdBigReadable), ("dest/2025/11/28/pictures/A_1.jpg", fdBigReadable)] zeroStats
      = copyPhase imp0 mA
          (destDirFor imp0 "photo" dt0 ++ "/" ++ suffixName mA.stem 2 mA.ext)
          .copiedSuffixed
          [(destA, fdBigReadable), ("dest/2025/11/28/pictures/A_1.jpg", fdBigReadable)]
          zeroStats :=
  collision_suffix_least imp0 mA "photo"
    [(destA, fdBigReadable), ("dest/2025/11/28/pictures/A_1.jpg", fdBigReadable)] zeroStats dt0
    fdBigReadable 2 rfl rfl rfl rfl (by decide) (by decide) (by omega)
    (fun j hj1 hj2 => by
      have hj : j = 1 := by omega
      subst hj
      decide)
    (by decide) (by decide)

end MediaImporter

namespace MediaImporter

/-- A candidate whose `stat` raises but whose embedded capture time is
present and parseable, so its date still resolves. -/
def mExifNoStat : MediaFile :=
  ⟨"src", "A", ".jpg",
    ⟨[1, 2], dt0, false, true, [("EXIF DateTimeOriginal", "2025:11:28 14:30:45")]⟩⟩

/-- C3 counterexample: a per-file I/O error that aborts the whole run.
The first candidate's target path is occupied, the occupant's `stat`
raises, and the uncaught `OSError` from the size check propagates out of
`import_media`, so the run does not continue with the next file. -/
theorem per_file_stat_error_aborts_run :
    importMedia ⟨true, [mExifNoStat], none, "dest", false⟩
      [(destA, fdBigReadable)] zeroStats
      = .error ([(destA, fdBigReadable)], zeroStats) := by
  have hstep : organizeMedia ⟨true, [mExifNoStat], none, "dest", false⟩ mExifNoStat "photo"
      [(destA, fdBigReadable)] zeroStats
      = .error ([(destA, fdBigReadable)], zeroStats) := rfl
  exact rfl

/-- C3 (amended): `organize_media` propagates an exception exactly when
the candidate's date resolves, its target path is occupied, and one of
the two `stat` calls in the size check fails; every other per-file
failure (date resolution, hashing, directory creation, copy) returns
normally so the run continues with the next file. -/
theorem organize_error_characterization (imp : Importer) (m : MediaFile) (t : String)
    (fs : FS) (stats : Stats) :
    (∃ e, organizeMedia imp m t fs stats = .error e) ↔
      ∃ d dd, get_media_date m = some d ∧
        pathLookup fs (basePathFor imp m t d) = some dd ∧
        (dd.statOk = false ∨ m.data.statOk = false) := by
  constructor
  · rintro ⟨e, h⟩
    unfold organizeMedia copyPhase at h
    repeat' split at h
    any_goals simp only [reduceCtorEq] at h
    all_goals refine ⟨_, _, by assumption, by assumption, ?_⟩
    all_goals simp_all
  · rintro ⟨d, dd, hd, hl, hbad⟩
    refine ⟨(fs, stats), ?_⟩
    rcases hbad with hbad | hbad
    · simp only [organizeMedia, hd, hl, hbad, Bool.false_eq_true, if_false]
    · simp only [organizeMedia, hd, hl, hbad, Bool.false_eq_true, if_false]
      split <;> rfl

end MediaImporter

namespace MediaImporter

/-- Outcomes after which re-running the same candidate against the
resulting tree skips it: every outcome except a collision copy and a
copy error. -/
def benign (o : Outcome) : Prop :=
  o = .skippedNoDate ∨ o = .skippedSameSize ∨ o = .skippedHashEqual ∨ o = .copiedFresh

/-- A run of the per-file loop that completes with every outcome benign. -/
def RunOk (imp : Importer) : FS → Stats → List (MediaFile × String) → Prop
  | _, _, [] => True
  | fs, stats, x :: rest => ∃ fs2 stats2 b out,
      organizeMedia imp x.1 x.2 fs stats = .ok (fs2, stats2, b, out) ∧ benign out ∧
      RunOk imp fs2 stats2 rest

/-- The second tree preserves every binding of the first. -/
def fsExtends (fs fs2 : FS) : Prop :=
  ∀ p dd, pathLookup fs p = some dd → pathLookup fs2 p = some dd

theorem fsExtends_refl (fs : FS) : fsExtends fs fs := fun _ _ h => h

theorem fsExtends_trans {a b c : FS} (h1 : fsExtends a b) (h2 : fsExtends b c) :
    fsExtends a c :=
  fun p dd h => h2 p dd (h1 p dd h)

theorem pathLookup_cons_self (fs : FS) (p : String) (dd : FileData) :
    pathLookup ((p, dd) :: fs) p = some dd := by
  simp [pathLookup]

theorem fsExtends_cons_fresh (fs : FS) (p : String) (dd : FileData)
    (hfresh : pathLookup fs p = none) : fsExtends fs ((p, dd) :: fs) := by
  intro q d2 h
  rw [pathLookup]
  split
  · rename_i hpq
    rw [hpq] at hfresh
    rw [hfresh] at h
    cases h
  · exact h

/-- A candidate the destination tree already accounts for: its date
fails to resolve, or its target path is occupied by a file that the size
or digest comparison will report as a duplicate. -/
def stableFile (imp : Importer) (fs : FS) (m : MediaFile) (t : String) : Prop :=
  get_media_date m = none ∨
  ∃ d dd, get_media_date m = some d ∧ pathLookup fs (basePathFor imp m t d) = some dd ∧
    dd.statOk = true ∧ m.data.statOk = true ∧
    (dd.content.length = m.data.content.length ∨ get_file_hash m.data = get_file_hash dd)

theorem stableFile_mono {imp : Importer} {fs fs2 : FS} {m : MediaFile} {t : String}
    (hext : fsExtends fs fs2) (h : stableFile imp fs m t) : stableFile imp fs2 m t := by
  rcases h with h | ⟨d, dd, hd, hl, h1, h2, h3⟩
  · exact Or.inl h
  · exact Or.inr ⟨d, dd, hd, hext _ _ hl, h1, h2, h3⟩

/-- Re-running `organize_media` on a stable candidate skips it and
leaves the tree unchanged. -/
theorem stable_organize {imp : Importer} {fs : FS} {m : MediaFile} {t : String}
    (h : stableFile imp fs m t) (stats : Stats) :
    ∃ out, organizeMedia imp m t fs stats
      = .ok (fs, { stats with skipped := stats.skipped + 1 }, false, out) := by
  rcases h with h | ⟨d, dd, hd, hl, h1, h2, h3⟩
  · exact ⟨.skippedNoDate, by simp only [organizeMedia, h]⟩
  · by_cases hsz : dd.content.length = m.data.content.length
    · exact ⟨.skippedSameSize, (organize_at_occupied imp m t fs stats d dd hd hl h1 h2).1 hsz⟩
    · have hh : get_file_hash m.data = get_file_hash dd := by tauto
      exact ⟨.skippedHashEqual,
        (organize_at_occupied imp m t fs stats d dd hd hl h1 h2).2.1 hsz hh⟩

/-- Case analysis of the copy step on a normal return: either the copy
succeeded (tree grows by the copied file, tag reported), or the outcome
is a counted copy error. -/
theorem copyPhase_ok_cases {imp : Importer} {m : MediaFile} {p : String} {tag : Outcome}
    {fs fs2 : FS} {stats stats2 : Stats} {b : Bool} {out : Outcome}
    (hdry : imp.dry_run = false)
    (h : copyPhase imp m p tag fs stats = .ok (fs2, stats2, b, out)) :
    (m.data.readable = true ∧ m.data.statOk = true ∧
      fs2 = (p, copiedFile m.data) :: fs ∧ out = tag) ∨ out = .errorCopy := by
  unfold copyPhase at h
  rw [hdry] at h
  repeat' split at h
  all_goals simp only [Except.ok.injEq, Prod.mk.injEq, reduceCtorEq] at h
  all_goals obtain ⟨rfl, rfl, rfl, rfl⟩ := h
  all_goals simp_all

/-- One benign step of the non-dry-run loop only adds a fresh binding to
the tree and leaves its own candidate stable. -/
theorem organize_benign_step {imp : Importer} {m : MediaFile} {t : String}
    {fs fs2 : FS} {stats stats2 : Stats} {b : Bool} {out : Outcome}
    (hdry : imp.dry_run = false)
    (h : organizeMedia imp m t fs stats = .ok (fs2, stats2, b, out)) (hben : benign out) :
    fsExtends fs fs2 ∧ stableFile imp fs2 m t := by
  cases hgd : get_media_date m with
  | none =>
    simp only [organizeMedia, hgd, Except.ok.injEq, Prod.mk.injEq] at h
    obtain ⟨rfl, _, _, _⟩ := h
    exact ⟨fsExtends_refl fs, Or.inl hgd⟩
  | some d =>
    cases hlk : pathLookup fs (basePathFor imp m t d) with
    | some dd =>
      by_cases h1 : dd.statOk = true
      · by_cases h2 : m.data.statOk = true
        · by_cases hsz : dd.content.length = m.data.content.length
          · rw [(organize_at_occupied imp m t fs stats d dd hgd hlk h1 h2).1 hsz] at h
            simp only [Except.ok.injEq, Prod.mk.injEq] at h
            obtain ⟨rfl, _, _, _⟩ := h
            exact ⟨fsExtends_refl fs, Or.inr ⟨d, dd, hgd, hlk, h1, h2, Or.inl hsz⟩⟩
          · by_cases hh : get_file_hash m.data = get_file_hash dd
            · rw [(organize_at_occupied imp m t fs stats d dd hgd hlk h1 h2).2.1 hsz hh] at h
              simp only [Except.ok.injEq, Prod.mk.injEq] at h
              obtain ⟨rfl, _, _, _⟩ := h
              exact ⟨fsExtends_refl fs, Or.inr ⟨d, dd, hgd, hlk, h1, h2, Or.inr hh⟩⟩
            · rw [(organize_at_occupied imp m t fs stats d dd hgd hlk h1 h2).2.2 hsz hh] at h
              rcases copyPhase_ok_cases hdry h with ⟨_, _, _, houttag⟩ | hout
              · subst houttag
                simp [benign] at hben
              · subst hout
                simp [benign] at hben
        · have h2f : m.data.statOk = false := by simp_all
          simp only [organizeMedia, hgd, hlk, h1, if_true, ite_true, h2f,
            Bool.false_eq_true, if_false, reduceCtorEq] at h
      · have h1f : dd.statOk = false := by simp_all
        simp only [organizeMedia, hgd, hlk, h1f, Bool.false_eq_true, if_false,
          reduceCtorEq] at h
    | none =>
      simp only [organizeMedia, hgd, hlk] at h
      rcases copyPhase_ok_cases hdry h with ⟨hr, hst, hfs2, houttag⟩ | hout
      · subst hfs2
        exact ⟨fsExtends_cons_fresh fs _ _ hlk,
          Or.inr ⟨d, copiedFile m.data, hgd, pathLookup_cons_self fs _ _, rfl, hst, Or.inl rfl⟩⟩
      · subst hout
        simp [benign] at hben

end MediaImporter

namespace MediaImporter

/-- A loop over candidates that are all stable skips every one of them
and leaves the tree untouched. -/
theorem stable_processFiles (imp : Importer) :
    ∀ (files : List (MediaFile × String)) (fs : FS) (stats : Stats),
      (∀ x ∈ files, stableFile imp fs x.1 x.2) →
      processFiles imp fs stats files
        = .ok (fs, { stats with skipped := stats.skipped + files.length }) := by
  intro files
  induction files with
  | nil => intro fs stats _; rfl
  | cons x rest ih =>
    intro fs stats hall
    obtain ⟨out, hstep⟩ := stable_organize (hall x (List.mem_cons_self x rest)) stats
    simp only [processFiles, hstep]
    rw [ih fs _ (fun y hy => hall y (List.mem_cons_of_mem x hy))]
    have harith : stats.skipped + 1 + rest.length = stats.skipped + (x :: rest).length := by
      simp only [List.length_cons]
      omega
    simp only [harith]

/-- A completed all-benign run leaves a tree that extends the initial
one and holds every processed candidate stable. -/
theorem runok_processFiles (imp : Importer) (hdry : imp.dry_run = false) :
    ∀ (files : List (MediaFile × String)) (fs : FS) (stats : Stats),
      RunOk imp fs stats files →
      ∃ fs2 stats2, processFiles imp fs stats files = .ok (fs2, stats2) ∧
        fsExtends fs fs2 ∧ ∀ x ∈ files, stableFile imp fs2 x.1 x.2 := by
  intro files
  induction files with
  | nil =>
    intro fs stats _
    exact ⟨fs, stats, rfl, fsExtends_refl fs, by simp⟩
  | cons x rest ih =>
    intro fs stats hrun
    obtain ⟨fs2, stats2, b, out, hstep, hben, hrest⟩ := hrun
    obtain ⟨hext, hstab⟩ := organize_benign_step hdry hstep hben
    obtain ⟨fs3, stats3, hproc, hext2, hstab3⟩ := ih fs2 stats2 hrest
    refine ⟨fs3, stats3, ?_, fsExtends_trans hext hext2, ?_⟩
    · simp only [processFiles, hstep]
      exact hproc
    · intro y hy
      rcases List.mem_cons.mp hy with rfl | hy2
      · exact stableFile_mono hext2 hstab
      · exact hstab3 y hy2

end MediaImporter

namespace MediaImporter

/-- C4 counterexample: idempotence fails once a collision suffix is
involved.  The destination holds a different `A.jpg`, so the first run
copies the source file to `A_1.jpg`; re-running with the destination
unchanged in between finds `A.jpg` still different and `A_1.jpg`
occupied, and copies AGAIN to `A_2.jpg` — the second run reports one
copy, not zero copies and N skips. -/
theorem second_run_copies_after_collision :
    importMedia imp1 [(destA, fdBigReadable)] zeroStats
      = .ok ([("dest/2025/11/28/pictures/A_1.jpg", copiedFile fdOk), (destA, fdBigReadable)],
        { copied := 1, skipped := 0, errors := 0, total_size := 2 }, true) ∧
    importMedia imp1
      [("dest/2025/11/28/pictures/A_1.jpg", copiedFile fdOk), (destA, fdBigReadable)] zeroStats
      = .ok ([("dest/2025/11/28/pictures/A_2.jpg", copiedFile fdOk),
          ("dest/2025/11/28/pictures/A_1.jpg", copiedFile fdOk), (destA, fdBigReadable)],
        { copied := 1, skipped := 0, errors := 0, total_size := 2 }, true) :=
  ⟨rfl, rfl⟩

/-- Unfolding equation of `import_media` for an existing source whose
scan found at least one candidate. -/
theorem importMedia_cons_eq (imp : Importer) (fs : FS) (stats : Stats)
    (hsrc : imp.sourceExists = true) (x : MediaFile × String)
    (rest : List (MediaFile × String)) (hfiles : find_all_media imp = x :: rest) :
    importMedia imp fs stats
      = match processFiles imp fs stats (x :: rest) with
        | .error e => .error e
        | .ok (fs2, stats2) => .ok (fs2, stats2, true) := by
  unfold importMedia
  rw [if_pos hsrc, hfiles]

/-- C4 (amended): for a non-dry run whose first pass completes with
every per-file outcome benign (a skip or a fresh copy at the base name —
no collision-suffix copies and no copy errors), running the importer
again with the destination unchanged in between reports zero copies and
N skips, where N is the number of candidate files processed by the
first run, and leaves the destination tree unchanged. -/
theorem import_idempotent_without_collisions (imp : Importer) (fs fs1 : FS) (st1 : Stats)
    (hdry : imp.dry_run = false)
    (hrun : RunOk imp fs zeroStats (find_all_media imp))
    (h1 : importMedia imp fs zeroStats = .ok (fs1, st1, true)) :
    importMedia imp fs1 zeroStats
      = .ok (fs1,
        { copied := 0, skipped := (find_all_media imp).length, errors := 0, total_size := 0 },
        true) := by
  by_cases hsrc : imp.sourceExists = true
  · obtain ⟨fs2, stats2, hproc, hext, hstab⟩ :=
      runok_processFiles imp hdry (find_all_media imp) fs zeroStats hrun
    cases hfiles : find_all_media imp with
    | nil =>
      rw [hfiles] at hproc
      unfold importMedia at h1
      rw [if_pos hsrc, hfiles] at h1
      have h1f : (Except.ok (fs, zeroStats, false) : Except (FS × Stats) (FS × Stats × Bool))
          = .ok (fs1, st1, true) := h1
      simp at h1f
    | cons x rest =>
      rw [hfiles] at hproc hstab
      rw [importMedia_cons_eq imp fs zeroStats hsrc x rest hfiles, hproc] at h1
      have h1f : (Except.ok (fs2, stats2, true) : Except (FS × Stats) (FS × Stats × Bool))
          = .ok (fs1, st1, true) := h1
      simp only [Except.ok.injEq, Prod.mk.injEq, and_true] at h1f
      obtain ⟨rfl, rfl⟩ := h1f
      rw [importMedia_cons_eq imp fs2 zeroStats hsrc x rest hfiles,
        stable_processFiles imp (x :: rest) fs2 zeroStats hstab]
      have hS : ({ zeroStats with skipped := zeroStats.skipped + (x :: rest).length } : Stats)
          = (⟨0, (x :: rest).length, 0, 0⟩ : Stats) := by
        ext <;> simp [zeroStats]
      show (Except.ok (fs2, { zeroStats with skipped := zeroStats.skipped + (x :: rest).length },
          true) : Except (FS × Stats) (FS × Stats × Bool))
        = .ok (fs2, (⟨0, (x :: rest).length, 0, 0⟩ : Stats), true)
      rw [hS]
  · unfold importMedia at h1
    rw [if_neg hsrc] at h1
    simp at h1

/-- C4 witness: one healthy photo imported into an empty destination,
then imported again; the second run reports zero copies and one skip. -/
theorem import_idempotent_without_collisions_witness :
    importMedia imp1 [(destA, copiedFile fdOk)] zeroStats
      = .ok ([(destA, copiedFile fdOk)],
        { copied := 0, skipped := (find_all_media imp1).length, errors := 0, total_size := 0 },
        true) :=
  import_idempotent_without_collisions imp1 [] [(destA, copiedFile fdOk)]
    { copied := 1, skipped := 0, errors := 0, total_size := 2 } rfl
    ⟨[(destA, copiedFile fdOk)], { copied := 1, skipped := 0, errors := 0, total_size := 2 },
      true, .copiedFresh, rfl, Or.inr (Or.inr (Or.inr rfl)), trivial⟩
    rfl

end MediaImporter
